import Mathlib

/-!
Shallow embedding of the reconciliation and journal-generation engine of the
mmm-accounting-agent repository (src/src/holdings.py, income.py, activity.py,
summary.py, statement.py).

Modelling conventions:
* Python floats carrying dollar amounts are modelled as rationals (ℚ).
* Dates are modelled as their ISO `YYYY-MM-DD` strings; Python sorts
  `datetime.date` values chronologically, which coincides with the
  lexicographic order on the ISO strings.
* CSV files are modelled as the typed record lists they parse into; a missing
  file is `none`.  The two external collaborator files read by
  `Statement` (the chart of accounts and the prior month's holdings) are
  modelled as association lists stored on the `Statement` value.
* Journal rows are modelled by `JournalEntry` below.  The free-text Notes and
  Description columns, the constant Journal Number Prefix ("MMW-"), Journal
  Type ("both"), and the always-empty Contact Name / Project Name /
  Exchange Rate columns are omitted: they carry no accounting content and no
  claim depends on them.  Debit/Credit cells keep their exact (unformatted)
  rational value; `round2` below models the `f"{x:.2f}"` two-decimal
  formatting applied at write time.
-/

/-- Boolean test that `p` is a prefix of the second character list. -/
def listIsPre : List Char → List Char → Bool
  | [], _ => true
  | _ :: _, [] => false
  | p :: ps, c :: cs => p == c && listIsPre ps cs

/-- Boolean test that `pat` occurs as a contiguous sublist. -/
def listHasSub (pat : List Char) : List Char → Bool
  | [] => listIsPre pat []
  | c :: cs => listIsPre pat (c :: cs) || listHasSub pat cs

/-- The Python substring test `pat in s`. -/
def hasSub (s pat : String) : Bool := listHasSub pat.data s.data

/-- Boolean linear-order comparison on strings (used only to model Python's
`sorted`; the claims do not depend on the particular total order). -/
def strLeB (a b : String) : Bool := decide (a.data ≤ b.data)

/-- Lexicographic comparison of `(date, basket)` keys, modelling Python's
tuple ordering in `sorted`. -/
def pairLeB (a b : String × String) : Bool :=
  if a.1 = b.1 then strLeB a.2 b.2 else strLeB a.1 b.1

/-- Sort a list of keys with a Boolean comparison (models Python `sorted`). -/
def sortKeys (le : κ → κ → Bool) (l : List κ) : List κ :=
  List.insertionSort (fun a b => le a b = true) l

/-- Group a record list by a key, in sorted key order, each group keeping the
original record order: models iterating `sorted(defaultdict_of_lists.items())`. -/
def groupsBy [DecidableEq κ] (key : τ → κ) (le : κ → κ → Bool) (l : List τ) :
    List (κ × List τ) :=
  (sortKeys le (l.map key).dedup).map (fun k => (k, l.filter (fun t => key t = k)))

/-- Emit numbered blocks: group `i` (0-based) of `gs` is rendered by
`f (k + i)`, modelling the `journal_number += 1` counter of each writer. -/
def numbered (f : ℕ → γ → List ε) : ℕ → List γ → List ε
  | _, [] => []
  | k, g :: gs => f k g ++ numbered f (k + 1) gs

/-- Round to the nearest integer, ties to even: the rounding mode of Python's
builtin `round`. -/
def roundHalfEven (x : ℚ) : ℤ :=
  if x - ⌊x⌋ < 1/2 then ⌊x⌋
  else if 1/2 < x - ⌊x⌋ then ⌊x⌋ + 1
  else if ⌊x⌋ % 2 = 0 then ⌊x⌋ else ⌊x⌋ + 1

/-- The value printed by the `f"{x:.2f}"` two-decimal formatting (on the exact
rational value of the amount). -/
def round2 (x : ℚ) : ℚ := (roundHalfEven (100 * x) : ℚ) / 100

/-- One holding position parsed from an HLD row (src/src/holdings.py). -/
structure Holding where
  symbol : String
  hdescription : String
  quantity : ℚ
  price : ℚ
  beginning_value : Option ℚ
  ending_value : ℚ
  cost_basis : Option ℚ
  unrealized_gain : Option ℚ
  change_from_prior_period : Option ℚ := none
deriving DecidableEq

/-- `Holding.is_money_market`: the holding has no cost basis (absent or 0). -/
def Holding.is_money_market (h : Holding) : Bool :=
  decide (h.cost_basis = none) || decide (h.cost_basis = some 0)

/-- `Holding.change_in_value`.  Mirrors the source branch for branch, including
Python truthiness of `self.cost_basis if self.cost_basis else 0.0`. -/
def Holding.change_in_value (h : Holding) : ℚ :=
  if h.is_money_market then 0
  else
    match h.beginning_value with
    | none => h.ending_value - (match h.cost_basis with
        | some c => if c = 0 then 0 else c
        | none => 0)
    | some bv =>
      if bv = 0 then h.ending_value - (match h.cost_basis with
        | some c => if c = 0 then 0 else c
        | none => 0)
      else if 0 < bv then h.ending_value - bv
      else 0

/-- The holdings data of one HLD file. -/
abbrev Holdings := List Holding

/-- `Holdings.change_in_value`: total change in value across all holdings. -/
def Holdings.change_in_value (hs : Holdings) : ℚ :=
  (hs.map Holding.change_in_value).sum

/-- One income transaction parsed from an INC row (src/src/income.py). -/
structure IncomeTransaction where
  settlement_date : String
  security_name : String
  symbol : String
  cusip : String
  idescription : String
  quantity : Option ℚ
  price : Option ℚ
  amount : ℚ
deriving DecidableEq

/-- `IncomeTransaction.is_reinvestment`: `'Reinvestment' in self.description`. -/
def IncomeTransaction.is_reinvestment (t : IncomeTransaction) : Bool :=
  hasSub t.idescription "Reinvestment"

/-- The income data of one INC file. -/
abbrev Income := List IncomeTransaction

/-- `Income.amount`: total amount across all income transactions, excluding
reinvestments. -/
def Income.amount (inc : Income) : ℚ :=
  ((inc.filter (fun t => !t.is_reinvestment)).map (fun t => t.amount)).sum

/-- One buy/sell transaction parsed from an ACT row (src/src/activity.py). -/
structure ActivityTransaction where
  settlement_date : String
  action : String
  symbol : String
  security_name : String
  quantity : Option ℚ
  price : Option ℚ
  amount : ℚ
  transaction_cost : Option ℚ
  basket : Option String
  cost_basis : Option ℚ := none
deriving DecidableEq

/-- The activity data of one ACT file. -/
abbrev Activity := List ActivityTransaction

/-- The summary record of one SUM file (src/src/summary.py). -/
structure Summary where
  period_start : String
  period_end : String
  beginning_value_period : ℚ
  additions_period : ℚ
  subtractions_period : ℚ
  change_investment_value_period : ℚ
  ending_value_period : ℚ
  beginning_value_ytd : ℚ
  additions_ytd : ℚ
  subtractions_ytd : ℚ
  change_investment_value_ytd : ℚ
  ending_value_ytd : ℚ
  income_period : ℚ
  income_ytd : ℚ
deriving DecidableEq

/-- The in-memory state of a loaded `Statement` (src/src/statement.py).  A
`none` component models a scrape file that was missing (`load_all` swallows
`FileNotFoundError`).  `chart` models the symbol→account-name dictionary
returned by `_load_chart_of_accounts`; `priorValues` models the
symbol→prior-ending-value dictionary returned by `_load_prior_holdings`
(both are read from external collaborator files). -/
structure Statement where
  holdings : Option Holdings
  income : Option Income
  activity : Option Activity
  summary : Option Summary
  chart : List (String × String) := []
  priorValues : List (String × ℚ) := []
deriving DecidableEq

/-- `Statement.is_validated`: the reconciliation validator. -/
def Statement.is_validated (st : Statement) : Bool :=
  match st.summary, st.income, st.holdings with
  | some su, some inc, some hs =>
      decide (|su.change_investment_value_period -
        (Income.amount inc + Holdings.change_in_value hs)| < 1/100)
  | _, _, _ => false

/-- `symbol_map.get(symbol, symbol)`: chart-of-accounts lookup with the raw
symbol as fallback. -/
def chartAccount (st : Statement) (s : String) : String :=
  match st.chart.lookup s with
  | some a => a
  | none => s

/-- One journal row of the entry export (see the module comment for the
columns omitted from the embedding). -/
structure JournalEntry where
  journal_date : String
  reference_number : String
  suffix : ℕ
  account : String
  debit : Option ℚ
  credit : Option ℚ
  currency : String
  status : String
deriving DecidableEq

/-- A debit row, with the constant Currency/Status cells of the source. -/
def debitLine (d ref : String) (n : ℕ) (acct : String) (amt : ℚ) : JournalEntry :=
  ⟨d, ref, n, acct, some amt, none, "USD", "published"⟩

/-- A credit row, with the constant Currency/Status cells of the source. -/
def creditLine (d ref : String) (n : ℕ) (acct : String) (amt : ℚ) : JournalEntry :=
  ⟨d, ref, n, acct, none, some amt, "USD", "published"⟩

/-- Sum of the exact debit amounts of a row list. -/
def rawDebitSum (l : List JournalEntry) : ℚ := (l.map (fun e => e.debit.getD 0)).sum

/-- Sum of the exact credit amounts of a row list. -/
def rawCreditSum (l : List JournalEntry) : ℚ := (l.map (fun e => e.credit.getD 0)).sum

/-- Sum of the debit amounts as formatted to two decimals. -/
def fmtDebitSum (l : List JournalEntry) : ℚ :=
  (l.map (fun e => round2 (e.debit.getD 0))).sum

/-- Sum of the credit amounts as formatted to two decimals. -/
def fmtCreditSum (l : List JournalEntry) : ℚ :=
  (l.map (fun e => round2 (e.credit.getD 0))).sum

/-- The money-market symbols excluded from purchase/sale journal generation. -/
def moneyMarketSymbols : List String := ["FDRXX", "SPAXX", "FCASH"]

/-- The rows of one dividend journal (one date group): one cash debit per
transaction, then one aggregate income credit for the group total. -/
def dividendGroupLines (n : ℕ) (g : String × List IncomeTransaction) : List JournalEntry :=
  let d := g.1
  let ts := g.2
  let ref := "DIV-" ++ d
  let total := (ts.map (fun t => t.amount)).sum
  (ts.map (fun t =>
    debitLine d ref n "Cash - Fidelity Cash Management Account" t.amount))
  ++ [creditLine d ref n "Income - Ordinary Dividends" total]

/-- `Statement.write_dividend_entries`: the rows of the DIV file, or `none`
when no file is written (income missing, or no non-reinvestment income). -/
def Statement.write_dividend_entries (st : Statement) : Option (List JournalEntry) :=
  match st.income with
  | none => none
  | some inc =>
    let ts := inc.filter (fun t => !t.is_reinvestment)
    if ts.isEmpty then none
    else some (numbered dividendGroupLines 10001 (groupsBy (fun t => t.settlement_date) strLeB ts))

/-- The `(settlement_date, basket or '')` grouping key used by the purchase
and sale writers. -/
def actKey (t : ActivityTransaction) : String × String :=
  (t.settlement_date, t.basket.getD "")

/-- The purchase transactions: action contains `Bought`, symbol not a money
market fund. -/
def purchaseTxns (acts : Activity) : Activity :=
  acts.filter (fun t => hasSub t.action "Bought" && !moneyMarketSymbols.contains t.symbol)

/-- The rows of one purchase journal: one security debit per transaction, then
one aggregate cash credit for the group total. -/
def purchaseGroupLines (st : Statement) (n : ℕ)
    (g : (String × String) × List ActivityTransaction) : List JournalEntry :=
  let d := g.1.1
  let b := g.1.2
  let ts := g.2
  let ref := "PUR-" ++ d ++ (if b = "" then "" else "-" ++ b)
  let total := (ts.map (fun t => t.amount)).sum
  (ts.map (fun t => debitLine d ref n (chartAccount st t.symbol) t.amount))
  ++ [creditLine d ref n "Cash - Fidelity Cash Management Account" total]

/-- `Statement.write_purchase_entries`: the rows of the PUR file, or `none`
when no file is written. -/
def Statement.write_purchase_entries (st : Statement) : Option (List JournalEntry) :=
  match st.activity with
  | none => none
  | some acts =>
    let ts := purchaseTxns acts
    if ts.isEmpty then none
    else some (numbered (purchaseGroupLines st) 20001 (groupsBy actKey pairLeB ts))

/-- The sale transactions: action contains `Sold`, symbol not a money market
fund. -/
def saleTxns (acts : Activity) : Activity :=
  acts.filter (fun t => hasSub t.action "Sold" && !moneyMarketSymbols.contains t.symbol)

/-- The basket→realized-gains income account of the sale writer
(`basket_income_accounts`); unknown baskets fall back to
`Income - Equity Securities`. -/
def saleIncomeAccount (b : String) : String :=
  if b = "10001" then "Income - Equity Securities Baskets - Water Investments"
  else if b = "10003" then "Income - Equity Securities Baskets - Buy Write ETFs"
  else if b = "10005" then "Income - Equity Securities Baskets - Holding Companies"
  else if b = "10007" then "Income - Equity Securities Baskets - Balanced ETFs"
  else "Income - Equity Securities"

/-- `txn.cost_basis if txn.cost_basis else txn.amount`: a sale with a missing
or zero (falsy) cost basis contributes its own proceeds as cost basis. -/
def effectiveCostBasis (t : ActivityTransaction) : ℚ :=
  match t.cost_basis with
  | some c => if c = 0 then t.amount else c
  | none => t.amount

/-- Aggregated proceeds of one symbol within a sale group. -/
def symbolProceeds (ts : List ActivityTransaction) (s : String) : ℚ :=
  ((ts.filter (fun t => t.symbol = s)).map (fun t => t.amount)).sum

/-- Aggregated (effective) cost basis of one symbol within a sale group. -/
def symbolCostBasis (ts : List ActivityTransaction) (s : String) : ℚ :=
  ((ts.filter (fun t => t.symbol = s)).map effectiveCostBasis).sum

/-- Aggregated quantity of one symbol within a sale group
(`txn.quantity if txn.quantity else 0`). -/
def symbolQuantity (ts : List ActivityTransaction) (s : String) : ℚ :=
  ((ts.filter (fun t => t.symbol = s)).map (fun t =>
    match t.quantity with | some q => q | none => 0)).sum

/-- Realized gain (positive) or loss (negative) of one symbol within a sale
group: aggregated proceeds minus aggregated effective cost basis. -/
def symbolGainLoss (ts : List ActivityTransaction) (s : String) : ℚ :=
  symbolProceeds ts s - symbolCostBasis ts s

/-- The distinct symbols of a sale group in sorted order
(`sorted(symbol_totals.keys())`). -/
def symbolsSorted (ts : List ActivityTransaction) : List String :=
  sortKeys strLeB ((ts.map (fun t => t.symbol)).dedup)

/-- The realized gain/loss rows of one symbol in a sale group: below the $0.01
materiality threshold nothing is emitted; a loss debits the basket income
account, a gain credits it. -/
def saleGainLossLines (d ref : String) (n : ℕ) (acct : String)
    (ts : List ActivityTransaction) (s : String) : List JournalEntry :=
  let g := symbolGainLoss ts s
  if 1/100 ≤ |g| then
    if g < 0 then [debitLine d ref n acct (|g|)]
    else [creditLine d ref n acct g]
  else []

/-- The cost-basis row of one symbol in a sale group: credit the security's
account for the aggregated effective cost basis removed. -/
def saleCostBasisLine (st : Statement) (d ref : String) (n : ℕ)
    (ts : List ActivityTransaction) (s : String) : JournalEntry :=
  creditLine d ref n (chartAccount st s) (symbolCostBasis ts s)

/-- The rows of one sale journal: (1) aggregate cash debit for total proceeds,
(2) per-symbol materiality-filtered realized gain/loss rows, (3) per-symbol
cost-basis credits. -/
def saleGroupLines (st : Statement) (n : ℕ)
    (g : (String × String) × List ActivityTransaction) : List JournalEntry :=
  let d := g.1.1
  let b := g.1.2
  let ts := g.2
  let ref := "SAL-" ++ d ++ (if b = "" then "" else "-" ++ b)
  let acct := saleIncomeAccount b
  let total := (ts.map (fun t => t.amount)).sum
  debitLine d ref n "Cash - Fidelity Cash Management Account" total
  :: ((symbolsSorted ts).bind (saleGainLossLines d ref n acct ts)
      ++ (symbolsSorted ts).map (saleCostBasisLine st d ref n ts))

/-- `Statement.write_sale_entries`: the rows of the SAL file, or `none` when
no file is written. -/
def Statement.write_sale_entries (st : Statement) : Option (List JournalEntry) :=
  match st.activity with
  | none => none
  | some acts =>
    let ts := saleTxns acts
    if ts.isEmpty then none
    else some (numbered (saleGroupLines st) 30001 (groupsBy actKey pairLeB ts))

/-- `basket_config` of `write_unrealized_entries`: symbol →
(basket id, basket name, FMV-adjustment account, unrealized-gain account). -/
def basket_config (s : String) : Option (String × String × String × String) :=
  let water := ("10001", "Water Investments",
    "Trading Securities - Water Basket - FMV Adjustment",
    "Unrealized Gain - Equity Baskets - Water Investments")
  let buyWrite := ("10003", "Buy Write ETFs",
    "Trading Securities - Buy-Write ETFs - FMV Adjustment",
    "Unrealized Gain - Equity Baskets - Buy Write ETFs")
  let holdingCos := ("10005", "Holding Companies",
    "Trading Securities - Holding Companies - FMV Adjustment",
    "Unrealized Gain - Equity Baskets - Holding Companies")
  let balanced := ("10007", "Balanced ETFs",
    "Trading Securities - Balanced ETFs - FMV Adjustment",
    "Unrealized Gain - Equity Baskets - Balanced ETFs")
  if s = "CWCO" ∨ s = "ALCO" ∨ s = "AWK" ∨ s = "CWT" ∨ s = "ECL" ∨ s = "FPI" ∨
     s = "FERG" ∨ s = "LAND" ∨ s = "GWRS" ∨ s = "VEGI" ∨ s = "WAT" ∨ s = "XYL" then some water
  else if s = "JEPI" ∨ s = "QYLD" ∨ s = "SPYI" ∨ s = "TLTW" ∨ s = "XYLD" ∨
     s = "RYLD" ∨ s = "MUST" then some buyWrite
  else if s = "APO" ∨ s = "BRKB" ∨ s = "BX" ∨ s = "KKR" ∨ s = "L" ∨ s = "TPG" then some holdingCos
  else if s = "FDEM" ∨ s = "FDEV" ∨ s = "FELC" ∨ s = "FESM" ∨ s = "FMDE" ∨
     s = "ONEQ" then some balanced
  else none

/-- The basket id a symbol is mapped to, if any. -/
def basketIdOf (s : String) : Option String := (basket_config s).map (fun c => c.1)

/-- The (name, FMV account, unrealized account) triple stored for a basket id
in `basket_info`.  In the source these values are copied out of
`basket_config`, whose entries with the same basket id all carry the same
triple, so the triple is a function of the id alone. -/
def basketAccounts (bid : String) : String × String × String :=
  if bid = "10001" then ("Water Investments",
    "Trading Securities - Water Basket - FMV Adjustment",
    "Unrealized Gain - Equity Baskets - Water Investments")
  else if bid = "10003" then ("Buy Write ETFs",
    "Trading Securities - Buy-Write ETFs - FMV Adjustment",
    "Unrealized Gain - Equity Baskets - Buy Write ETFs")
  else if bid = "10005" then ("Holding Companies",
    "Trading Securities - Holding Companies - FMV Adjustment",
    "Unrealized Gain - Equity Baskets - Holding Companies")
  else if bid = "10007" then ("Balanced ETFs",
    "Trading Securities - Balanced ETFs - FMV Adjustment",
    "Unrealized Gain - Equity Baskets - Balanced ETFs")
  else ("", "", "")

/-- `holdings_with_beginning`: symbols of current holdings whose
`beginning_value` is present and positive. -/
def holdingsWithBeginning (hs : Holdings) (s : String) : Bool :=
  hs.any (fun h => decide (h.symbol = s) &&
    (match h.beginning_value with | some b => decide (0 < b) | none => false))

/-- `current_symbols`: membership in the symbols of the period-end holdings. -/
def currentSymbols (hs : Holdings) (s : String) : Bool :=
  hs.any (fun h => decide (h.symbol = s))

/-- The activity list of a statement, empty when the ACT file was missing
(the source guards every activity loop with `if self.activity is not None`). -/
def stActivity (st : Statement) : Activity := st.activity.getD []

/-- The holdings list of a statement (the unrealized writer only runs with
holdings present). -/
def stHoldings (st : Statement) : Holdings := st.holdings.getD []

/-- `prior_values.get(symbol)`: the prior month's ending value of a symbol. -/
def priorValue (st : Statement) (s : String) : Option ℚ :=
  st.priorValues.lookup s

/-- Contribution of one holding to `basket_totals[bid]`: its change in value
when it is a non-money-market holding mapped to basket `bid`. -/
def basketHoldingTerm (bid : String) (h : Holding) : ℚ :=
  if !h.is_money_market ∧ basketIdOf h.symbol = some bid then h.change_in_value else 0

/-- Contribution of one activity transaction to the purchase/sale adjustment
of `basket_totals`: applied only to basket-mapped symbols that still have a
positive beginning value in current holdings; purchases subtract, sales add. -/
def basketAdjustTerm (st : Statement) (bid : String) (t : ActivityTransaction) : ℚ :=
  if basketIdOf t.symbol = some bid ∧ holdingsWithBeginning (stHoldings st) t.symbol = true then
    (if hasSub t.action "Bought" then -t.amount
     else if hasSub t.action "Sold" then t.amount
     else 0)
  else 0

/-- The sale transactions that qualify for liquidation accounting: action
contains `Sold`, symbol basket-mapped, symbol absent from current holdings. -/
def liqSoldTxns (st : Statement) : Activity :=
  (stActivity st).filter (fun t => hasSub t.action "Sold" &&
    (basket_config t.symbol).isSome && !currentSymbols (stHoldings st) t.symbol)

/-- `sold_proceeds[symbol]`: total qualifying sale proceeds of a fully-sold
symbol. -/
def soldProceeds (st : Statement) (s : String) : ℚ :=
  (((liqSoldTxns st).filter (fun t => t.symbol = s)).map (fun t => t.amount)).sum

/-- The distinct fully-sold symbols considered by the liquidation loop. -/
def liqSymbols (st : Statement) : List String :=
  ((liqSoldTxns st).map (fun t => t.symbol)).dedup

/-- The period change added to `basket_totals` for one fully-sold symbol:
proceeds minus the prior month's ending value when that value is available,
nothing otherwise (and nothing for symbols with no qualifying sale). -/
def liquidationTerm (st : Statement) (s : String) : ℚ :=
  if ((stActivity st).any (fun t => decide (t.symbol = s) && hasSub t.action "Sold")) &&
     (basket_config s).isSome && !currentSymbols (stHoldings st) s then
    match priorValue st s with
    | some pv => soldProceeds st s - pv
    | none => 0
  else 0

/-- `basket_totals[bid]`: the net mark-to-market change of one basket, as
accumulated by `write_unrealized_entries` (holdings changes, purchase/sale
adjustments, liquidation changes). -/
def basket_totals (st : Statement) (bid : String) : ℚ :=
  ((stHoldings st).map (basketHoldingTerm bid)).sum
  + ((stActivity st).map (basketAdjustTerm st bid)).sum
  + ((liqSymbols st).map (fun s =>
      if basketIdOf s = some bid then liquidationTerm st s else 0)).sum

/-- The basket ids that receive a key in the `basket_totals` defaultdict:
baskets of mapped non-money-market holdings, baskets of adjustment
transactions, and baskets of fully-sold symbols with a prior value. -/
def basketKeys (st : Statement) : List String :=
  (((stHoldings st).filter (fun h => !h.is_money_market && (basket_config h.symbol).isSome)).map
      (fun h => ((basket_config h.symbol).map (fun c => c.1)).getD "")
    ++ ((stActivity st).filter (fun t => (basket_config t.symbol).isSome &&
        holdingsWithBeginning (stHoldings st) t.symbol)).map
      (fun t => ((basket_config t.symbol).map (fun c => c.1)).getD "")
    ++ ((liqSymbols st).filter (fun s => (priorValue st s).isSome)).map
      (fun s => ((basket_config s).map (fun c => c.1)).getD "")).dedup

/-- Whether `basket_info` holds an entry for a basket id: set while iterating
mapped non-money-market holdings and fully-sold symbols with a prior value. -/
def basketInfoAvailable (st : Statement) (bid : String) : Bool :=
  (stHoldings st).any (fun h => !h.is_money_market && decide (basketIdOf h.symbol = some bid))
  || (liqSymbols st).any (fun s => decide (basketIdOf s = some bid) && (priorValue st s).isSome)

/-- The rows of one unrealized journal (one basket): nothing below the $0.01
materiality threshold; otherwise one balanced pair for `abs(round(change, 2))`,
debiting FMV / crediting unrealized gain for a gain and the reverse for a
loss.  The `basket_info` lookup can miss: a basket id touched only by the
purchase/sale adjustment for a money-market basket-mapped holding reaches the
emission loop without a `basket_info` entry, and the source raises `KeyError`
there instead of emitting anything.  That branch is modelled as producing no
rows (either way no pair for the basket is written). -/
def unrealizedGroupLines (st : Statement) (pe : String) (n : ℕ) (bid : String) :
    List JournalEntry :=
  let c := basket_totals st bid
  if |c| < 1/100 then []
  else if basketInfoAvailable st bid then
    let acc := basketAccounts bid
    let ref := "UNR-" ++ pe ++ "-" ++ bid
    let amt := |round2 c|
    if 0 < c then
      [debitLine pe ref n acc.2.1 amt, creditLine pe ref n acc.2.2 amt]
    else
      [debitLine pe ref n acc.2.2 amt, creditLine pe ref n acc.2.1 amt]
  else []

/-- The unrealized writer's loop over the sorted basket ids, threading the
journal suffix: a sub-threshold basket is skipped without consuming a suffix
(in the source `continue` fires before `journal_number += 1`), while any
other basket advances the suffix by one after its body runs. -/
def unrealizedLoop (st : Statement) (pe : String) : ℕ → List String → List JournalEntry
  | _, [] => []
  | n, bid :: rest =>
    if |basket_totals st bid| < 1/100 then unrealizedLoop st pe n rest
    else unrealizedGroupLines st pe n bid ++ unrealizedLoop st pe (n + 1) rest

/-- `Statement.write_unrealized_entries`: the rows of the UNR file, or `none`
when no file is written (missing holdings or summary, or an empty
`basket_totals`). -/
def Statement.write_unrealized_entries (st : Statement) : Option (List JournalEntry) :=
  match st.holdings, st.summary with
  | some _, some su =>
    let keys := sortKeys strLeB (basketKeys st)
    if keys.isEmpty then none
    else some (unrealizedLoop st su.period_end 40001 keys)
  | _, _ => none

/-- The per-entry-type files written by `write_entries`, in the order the
combiner reads them back. -/
def entryFiles (st : Statement) : List (String × Option (List JournalEntry)) :=
  [("DIV", st.write_dividend_entries), ("PUR", st.write_purchase_entries),
   ("SAL", st.write_sale_entries), ("UNR", st.write_unrealized_entries)]

/-- `Statement.write_entries`: the combined ENT stream, produced by reading
back each per-type file that exists, in the fixed DIV, PUR, SAL, UNR order,
copying its rows unchanged. -/
def Statement.write_entries (st : Statement) : List JournalEntry :=
  ["DIV", "PUR", "SAL", "UNR"].bind (fun ty =>
    match (entryFiles st).lookup ty with
    | some (some rows) => rows
    | _ => [])

/-- The part of `basket_totals` attributable to one symbol: the same three
sums restricted to that symbol's holdings rows, activity rows and (possible)
liquidation entry. -/
def symbolContribution (st : Statement) (s : String) : ℚ :=
  (((stHoldings st).filter (fun h => h.symbol = s)).map (fun h =>
      if !h.is_money_market ∧ (basket_config h.symbol).isSome = true
      then h.change_in_value else 0)).sum
  + (((stActivity st).filter (fun t => t.symbol = s)).map (fun t =>
      if (basket_config t.symbol).isSome = true ∧
         holdingsWithBeginning (stHoldings st) t.symbol = true then
        (if hasSub t.action "Bought" then -t.amount
         else if hasSub t.action "Sold" then t.amount
         else 0)
      else 0)).sum
  + liquidationTerm st s

/-- The part of `basket_totals st bid` contributed by symbols other than `s`. -/
def basketTotalExcluding (st : Statement) (bid : String) (s : String) : ℚ :=
  (((stHoldings st).filter (fun h => ¬h.symbol = s)).map (basketHoldingTerm bid)).sum
  + (((stActivity st).filter (fun t => ¬t.symbol = s)).map (basketAdjustTerm st bid)).sum
  + (((liqSymbols st).filter (fun x => ¬x = s)).map (fun x =>
      if basketIdOf x = some bid then liquidationTerm st x else 0)).sum

/-- Total `Bought` activity amount recorded for a symbol in the period. -/
def boughtSum (st : Statement) (s : String) : ℚ :=
  (((stActivity st).filter (fun t => decide (t.symbol = s) && hasSub t.action "Bought")).map
    (fun t => t.amount)).sum

/-- Total `Sold` activity amount recorded for a symbol in the period. -/
def soldSum (st : Statement) (s : String) : ℚ :=
  (((stActivity st).filter (fun t => decide (t.symbol = s) && hasSub t.action "Sold")).map
    (fun t => t.amount)).sum

/-- The sum of the per-symbol realized gains/losses of a sale group that fall
below the $0.01 materiality threshold and are therefore never written as
gain/loss rows. -/
def immaterialGainLoss (ts : List ActivityTransaction) : ℚ :=
  ((symbolsSorted ts).map (fun s =>
    if |symbolGainLoss ts s| < 1/100 then symbolGainLoss ts s else 0)).sum

/-- The sorted sale groups of a statement (empty when activity is missing). -/
def salesGroups (st : Statement) : List ((String × String) × List ActivityTransaction) :=
  match st.activity with
  | none => []
  | some acts => groupsBy actKey pairLeB (saleTxns acts)

/-- The sale group that is assigned journal suffix `n`, if any. -/
def salesGroupAt (st : Statement) (n : ℕ) :
    Option ((String × String) × List ActivityTransaction) :=
  if 30001 ≤ n then (salesGroups st).get? (n - 30001) else none

/-- One raw SUM row: the string cell of each column, as handed to
`csv.DictReader` (src/src/summary.py). -/
structure SummaryRaw where
  period_start : String
  period_end : String
  beginning_value_period : String
  additions_period : String
  subtractions_period : String
  change_investment_value_period : String
  ending_value_period : String
  beginning_value_ytd : String
  additions_ytd : String
  subtractions_ytd : String
  change_investment_value_ytd : String
  ending_value_ytd : String
  income_period : String
  income_ytd : String
deriving DecidableEq

/-- `any(row.values())`: at least one cell of the row is a non-empty string. -/
def SummaryRaw.rowHasValues (r : SummaryRaw) : Bool :=
  !(r.period_start = "" ∧ r.period_end = "" ∧ r.beginning_value_period = "" ∧
    r.additions_period = "" ∧ r.subtractions_period = "" ∧
    r.change_investment_value_period = "" ∧ r.ending_value_period = "" ∧
    r.beginning_value_ytd = "" ∧ r.additions_ytd = "" ∧ r.subtractions_ytd = "" ∧
    r.change_investment_value_ytd = "" ∧ r.ending_value_ytd = "" ∧
    r.income_period = "" ∧ r.income_ytd = "")

/-- Numeric value of a digit character, if it is one. -/
def decDigit (c : Char) : Option ℕ :=
  if '0' ≤ c ∧ c ≤ '9' then some (c.toNat - '0'.toNat) else none

/-- Accumulating decimal-digit reader; fails on any non-digit. -/
def digitsVal (acc : ℕ) : List Char → Option ℕ
  | [] => some acc
  | c :: cs => match decDigit c with
    | some d => digitsVal (10 * acc + d) cs
    | none => none

/-- Split a character list at the first dot. -/
def splitDot : List Char → List Char × Option (List Char)
  | [] => ([], none)
  | c :: cs =>
    if c = '.' then ([], some cs)
    else
      let r := splitDot cs
      (c :: r.1, r.2)

/-- Parse an unsigned decimal literal (digits with an optional fractional
part; at least one digit). -/
def parseUnsigned (cs : List Char) : Option ℚ :=
  let p := splitDot cs
  match p.2 with
  | none =>
    if p.1.isEmpty then none
    else (digitsVal 0 p.1).map (fun n => (n : ℚ))
  | some fp =>
    if p.1.isEmpty ∧ fp.isEmpty then none
    else
      match digitsVal 0 p.1, digitsVal 0 fp with
      | some i, some f => some ((i : ℚ) + (f : ℚ) / (10 : ℚ) ^ fp.length)
      | _, _ => none

/-- The Python `float(cell)` conversion, modelled on plain decimal literals
(optionally signed; no exponents, spaces, infinities): `none` models the
`ValueError` the source lets escape. -/
def parseDecimal (s : String) : Option ℚ :=
  match s.data with
  | '-' :: rest => (parseUnsigned rest).map (fun q => -q)
  | cs => parseUnsigned cs

/-- The `date.fromisoformat(cell)` check, modelled as validating the
`YYYY-MM-DD` shape (digits in every position, month 1–12, day 1–31; the
per-month day-count check of Python is not modelled) and returning the
string unchanged: `none` models the `ValueError` the source lets escape. -/
def parseIsoDate (s : String) : Option String :=
  match s.data with
  | [y1, y2, y3, y4, s1, m1, m2, s2, d1, d2] =>
    match decDigit y1, decDigit y2, decDigit y3, decDigit y4,
          decDigit m1, decDigit m2, decDigit d1, decDigit d2 with
    | some _, some _, some _, some _, some mh, some ml, some dh, some dl =>
      if s1 = '-' ∧ s2 = '-' ∧ 1 ≤ 10 * mh + ml ∧ 10 * mh + ml ≤ 12 ∧
         1 ≤ 10 * dh + dl ∧ 10 * dh + dl ≤ 31 then some s else none
    | _, _, _, _, _, _, _, _ => none
  | _ => none

/-- `Summary.from_csv_row`: parse every cell of a raw row; `none` models the
`ValueError` raised by a cell that fails its conversion. -/
def Summary.from_csv_row (r : SummaryRaw) : Option Summary :=
  match parseIsoDate r.period_start, parseIsoDate r.period_end,
        parseDecimal r.beginning_value_period, parseDecimal r.additions_period,
        parseDecimal r.subtractions_period,
        parseDecimal r.change_investment_value_period,
        parseDecimal r.ending_value_period, parseDecimal r.beginning_value_ytd,
        parseDecimal r.additions_ytd, parseDecimal r.subtractions_ytd,
        parseDecimal r.change_investment_value_ytd, parseDecimal r.ending_value_ytd,
        parseDecimal r.income_period, parseDecimal r.income_ytd with
  | some ps, some pe, some bvp, some ap, some sp, some cvp, some evp,
    some bvy, some ay, some sy, some cvy, some evy, some ip, some iy =>
    some ⟨ps, pe, bvp, ap, sp, cvp, evp, bvy, ay, sy, cvy, evy, ip, iy⟩
  | _, _, _, _, _, _, _, _, _, _, _, _, _, _ => none

/-- The exceptions `Summary.from_csv_file` can raise. -/
inductive LoadErr where
  | file_not_found
  | value_error
deriving DecidableEq

/-- `Summary.from_csv_file`: a missing file raises `FileNotFoundError`; after
dropping all-empty rows, zero rows or more than one row raises `ValueError`;
otherwise the single row is parsed (a failing cell conversion also raising
`ValueError`). -/
def Summary.from_csv_file (file : Option (List SummaryRaw)) : Except LoadErr Summary :=
  match file with
  | none => .error .file_not_found
  | some rows =>
    match rows.filter SummaryRaw.rowHasValues with
    | [] => .error .value_error
    | [r] =>
      match Summary.from_csv_row r with
      | some s => .ok s
      | none => .error .value_error
    | _ => .error .value_error

/-- A non-reinvestment dividend of one eighth of a dollar (an exactly
representable float amount whose two-decimal formatting rounds down). -/
def txC1 : IncomeTransaction :=
  ⟨"2025-05-15", "ABC CORP", "ABC", "123456", "Dividend Received", none, none, 1/8⟩

/-- A statement whose income holds two such dividends on one date. -/
def stC1 : Statement := ⟨none, some [txC1, txC1], none, none, [], []⟩

/-- A non-money-market holding with `beginning_value` present and equal to 0. -/
def hC2 : Holding := ⟨"ABC", "ABC Corp", 1, 1, some 0, 10, some 4, none, none⟩

/-- A non-money-market holding with `beginning_value` present and negative. -/
def hC2n : Holding := ⟨"ABC", "ABC Corp", 1, 1, some (-5), 10, some 4, none, none⟩

/-- A basket-mapped money-market holding (no cost basis) with a positive
beginning value. -/
def hC3 : Holding := ⟨"CWCO", "Consolidated Water", 100, 2, some 100, 200, none, none, none⟩

/-- A statement holding only `hC3`. -/
def stC3 : Statement := ⟨some [hC3], none, none, none, [], []⟩

/-- A basket-mapped, non-money-market holding with a positive beginning
value. -/
def hC3w : Holding := ⟨"CWCO", "Consolidated Water", 100, 2, some 100, 130, some 50, none, none⟩

/-- A purchase of 20 dollars of CWCO during the period. -/
def tbC3 : ActivityTransaction :=
  ⟨"2025-05-10", "You Bought", "CWCO", "Consolidated Water", some 10, some 2, 20, none, none, none⟩

/-- A partial sale of 10 dollars of CWCO during the period. -/
def tsC3 : ActivityTransaction :=
  ⟨"2025-05-20", "You Sold", "CWCO", "Consolidated Water", some 5, some 2, 10, none, none, some 9⟩

/-- A statement with the held CWCO position and both its period trades. -/
def stC3w : Statement := ⟨some [hC3w], none, some [tbC3, tsC3], none, [], []⟩

/-- A full liquidation sale of JEPI for 120 dollars. -/
def tC5 : ActivityTransaction :=
  ⟨"2025-05-20", "You Sold", "JEPI", "JPMorgan Equity Premium", some 5, some 24, 120, none, none, some 100⟩

/-- A statement where JEPI is absent from period-end holdings, was sold for
120, and had a prior-month ending value of 100. -/
def stC5 : Statement := ⟨some [], none, some [tC5], none, [], [("JEPI", 100)]⟩

/-- A basket-mapped holding that gained exactly 0.009999 dollars. -/
def hC6a : Holding :=
  ⟨"CWCO", "Consolidated Water", 10, 1, some 1, 1 + 9999/1000000, some 5, none, none⟩

/-- A statement whose only basket total is 0.009999 dollars (below the
materiality threshold). -/
def stC6a : Statement := ⟨some [hC6a], none, none, none, [], []⟩

/-- A basket-mapped holding that gained exactly 0.01 dollars. -/
def hC6b : Holding :=
  ⟨"CWCO", "Consolidated Water", 10, 1, some 1, 1 + 1/100, some 5, none, none⟩

/-- A statement whose only basket total is exactly 0.01 dollars. -/
def stC6b : Statement := ⟨some [hC6b], none, none, none, [], []⟩

/-- A basket-mapped holding with no cost basis (money-market) but a positive
beginning value. -/
def hC6c : Holding :=
  ⟨"CWCO", "Consolidated Water", 100, 1, some 100, 100, none, none, none⟩

/-- A period purchase of that same symbol. -/
def tC6c : ActivityTransaction :=
  ⟨"2025-05-10", "You Bought", "CWCO", "Consolidated Water", some 50, some 1, 50, none, none, none⟩

/-- A statement whose only `basket_totals` key is created by the purchase/sale
adjustment alone: the money-market holding is skipped by the holdings loop, so
`basket_info` never receives the basket and the source's emission loop raises
`KeyError` for it. -/
def stC6c : Statement := ⟨some [hC6c], none, some [tC6c], none, [], []⟩

/-- A money-market holding (no cost basis) with both period values present. -/
def hC7 : Holding := ⟨"FDRXX", "Fidelity Government Cash", 10, 1, some 5, 12, none, none, none⟩

/-- A sale with no cost basis recorded. -/
def tC9 : ActivityTransaction :=
  ⟨"2025-05-15", "You Sold", "ABC", "ABC Corp", some 2, some 5, 10, none, none, none⟩

/-- A raw SUM row with one non-empty cell and unparseable (empty) cells
elsewhere. -/
def rowBad : SummaryRaw := ⟨"2025-05-01", "", "", "", "", "", "", "", "", "", "", "", "", ""⟩

/-- A raw SUM row all of whose cells parse. -/
def rowGood : SummaryRaw :=
  ⟨"2025-05-01", "2025-05-31", "100", "0", "0", "250", "350", "100", "0", "0", "250", "350", "50", "50"⟩

/-- The summary parsed from `rowGood`. -/
def sGood : Summary := ⟨"2025-05-01", "2025-05-31", 100, 0, 0, 250, 350, 100, 0, 0, 250, 350, 50, 50⟩

theorem sum_map_zero {α : Type} (l : List α) : (l.map (fun _ => (0 : ℚ))).sum = 0 := by
  induction l with
  | nil => rfl
  | cons a l ih => simp [ih]

theorem sum_map_add {α : Type} (l : List α) (f g : α → ℚ) :
    (l.map (fun a => f a + g a)).sum = (l.map f).sum + (l.map g).sum := by
  induction l with
  | nil => simp
  | cons a l ih => simp [ih]; ring

theorem sum_map_neg {α : Type} (l : List α) (f : α → ℚ) :
    (l.map (fun a => -f a)).sum = -(l.map f).sum := by
  induction l with
  | nil => simp
  | cons a l ih => simp [ih]; ring

theorem sum_map_filter_compl {α : Type} (p : α → Bool) (f : α → ℚ) (l : List α) :
    ((l.filter p).map f).sum + ((l.filter (fun a => !p a)).map f).sum = (l.map f).sum := by
  induction l with
  | nil => simp
  | cons a l ih =>
    cases hp : p a <;> simp [List.filter_cons, hp] <;> linarith [ih]

theorem sum_filter_eq_sum_ite {α : Type} (p : α → Bool) (f : α → ℚ) (l : List α) :
    ((l.filter p).map f).sum = (l.map (fun a => if p a then f a else 0)).sum := by
  induction l with
  | nil => rfl
  | cons a l ih =>
    cases hp : p a <;> simp [List.filter_cons, hp, ih]

theorem sum_groups {κ τ : Type} [DecidableEq κ] (key : τ → κ) (f : τ → ℚ) :
    ∀ (ks : List κ) (l : List τ), ks.Nodup → (∀ t ∈ l, key t ∈ ks) →
    (ks.map (fun k => ((l.filter (fun t => key t = k)).map f).sum)).sum = (l.map f).sum := by
  intro ks
  induction ks with
  | nil =>
    intro l _ hcov
    have : l = [] := List.eq_nil_iff_forall_not_mem.mpr (fun t ht => by
      exact absurd (hcov t ht) (List.not_mem_nil _))
    simp [this]
  | cons k ks ih =>
    intro l hnd hcov
    have hk : k ∉ ks := (List.nodup_cons.mp hnd).1
    have hnd' : ks.Nodup := (List.nodup_cons.mp hnd).2
    have hrest : ∀ k' ∈ ks,
        ((l.filter (fun t => key t = k')).map f).sum =
        (((l.filter (fun a => !decide (key a = k))).filter (fun t => key t = k')).map f).sum := by
      intro k' hk'
      have hkk : k' ≠ k := fun h => hk (h ▸ hk')
      rw [List.filter_filter]
      have hpq : ∀ t ∈ l,
          (decide (key t = k')) = (decide (key t = k') && !decide (key t = k)) := by
        intro t _
        by_cases h : key t = k'
        · have hkne : ¬key t = k := fun hc => hkk (h.symm.trans hc)
          simp [h, hkne, hkk]
        · simp [h]
      rw [List.filter_congr hpq]
    have := ih (l.filter (fun a => !decide (key a = k))) hnd' (by
      intro t ht
      rcases List.mem_filter.mp ht with ⟨htl, hpt⟩
      have := hcov t htl
      rcases List.mem_cons.mp this with h | h
      · exfalso
        simp [h] at hpt
      · exact h)
    calc (((k :: ks)).map (fun k => ((l.filter (fun t => key t = k)).map f).sum)).sum
        = ((l.filter (fun t => key t = k)).map f).sum
          + (ks.map (fun k => ((l.filter (fun t => key t = k)).map f).sum)).sum := by
          simp
      _ = ((l.filter (fun t => key t = k)).map f).sum
          + (ks.map (fun k' => (((l.filter (fun a => !decide (key a = k))).filter
              (fun t => key t = k')).map f).sum)).sum := by
          rw [List.map_congr_left hrest]
      _ = ((l.filter (fun t => key t = k)).map f).sum
          + ((l.filter (fun a => !decide (key a = k))).map f).sum := by rw [this]
      _ = (l.map f).sum := by
          have := sum_map_filter_compl (fun t => decide (key t = k)) f l
          simpa using this

theorem numbered_filter_suffix (f : ℕ → γ → List JournalEntry)
    (hf : ∀ i g e, e ∈ f i g → e.suffix = i) :
    ∀ (gs : List γ) (k n : ℕ),
      (numbered f k gs).filter (fun e => e.suffix = n)
      = if k ≤ n then (match gs.get? (n - k) with | some g => f n g | none => []) else [] := by
  intro gs
  induction gs with
  | nil =>
    intro k n
    simp only [numbered, List.filter_nil, List.get?_nil]
    split <;> rfl
  | cons g gs ih =>
    intro k n
    simp only [numbered, List.filter_append]
    rcases Nat.lt_trichotomy k n with hkn | hkn | hkn
    · have h1 : (f k g).filter (fun e => e.suffix = n) = [] := by
        apply List.filter_eq_nil_iff.mpr
        intro e he
        have := hf k g e he
        simp [this]
        omega
      have h2 := ih (k + 1) n
      have hle : k + 1 ≤ n := hkn
      have hsub : n - k = (n - (k + 1)) + 1 := by omega
      rw [h1, h2, if_pos hle, if_pos (Nat.le_of_lt hkn), List.nil_append, hsub]
      rfl
    · subst hkn
      have h1 : (f k g).filter (fun e => e.suffix = k) = f k g := by
        apply List.filter_eq_self.mpr
        intro e he
        simp [hf k g e he]
      have h2 := ih (k + 1) k
      rw [h1, h2, if_neg (by omega), if_pos (Nat.le_refl k)]
      simp
    · have h1 : (f k g).filter (fun e => e.suffix = n) = [] := by
        apply List.filter_eq_nil_iff.mpr
        intro e he
        have := hf k g e he
        simp [this]
        omega
      have h2 := ih (k + 1) n
      rw [h1, h2, if_neg (by omega), if_neg (by omega)]
      rfl

theorem rawDebitSum_cons (e : JournalEntry) (l : List JournalEntry) :
    rawDebitSum (e :: l) = e.debit.getD 0 + rawDebitSum l := by
  simp [rawDebitSum]

theorem rawCreditSum_cons (e : JournalEntry) (l : List JournalEntry) :
    rawCreditSum (e :: l) = e.credit.getD 0 + rawCreditSum l := by
  simp [rawCreditSum]

theorem rawDebitSum_append (l₁ l₂ : List JournalEntry) :
    rawDebitSum (l₁ ++ l₂) = rawDebitSum l₁ + rawDebitSum l₂ := by
  simp [rawDebitSum]

theorem rawCreditSum_append (l₁ l₂ : List JournalEntry) :
    rawCreditSum (l₁ ++ l₂) = rawCreditSum l₁ + rawCreditSum l₂ := by
  simp [rawCreditSum]

theorem rawDebitSum_bind {α : Type} (l : List α) (f : α → List JournalEntry) :
    rawDebitSum (l.bind f) = (l.map (fun a => rawDebitSum (f a))).sum := by
  induction l with
  | nil => rfl
  | cons a l ih => simp [List.cons_bind, rawDebitSum_append, ih]

theorem rawCreditSum_bind {α : Type} (l : List α) (f : α → List JournalEntry) :
    rawCreditSum (l.bind f) = (l.map (fun a => rawCreditSum (f a))).sum := by
  induction l with
  | nil => rfl
  | cons a l ih => simp [List.cons_bind, rawCreditSum_append, ih]

theorem mem_dividendGroupLines_suffix (i : ℕ) (g : String × List IncomeTransaction)
    (e : JournalEntry) (he : e ∈ dividendGroupLines i g) : e.suffix = i := by
  simp only [dividendGroupLines, List.mem_append, List.mem_map, List.mem_singleton] at he
  rcases he with ⟨t, _, rfl⟩ | rfl <;> rfl

theorem mem_purchaseGroupLines_suffix (st : Statement) (i : ℕ)
    (g : (String × String) × List ActivityTransaction)
    (e : JournalEntry) (he : e ∈ purchaseGroupLines st i g) : e.suffix = i := by
  simp only [purchaseGroupLines, List.mem_append, List.mem_map, List.mem_singleton] at he
  rcases he with ⟨t, _, rfl⟩ | rfl <;> rfl

theorem mem_saleGainLossLines_suffix (d ref : String) (i : ℕ) (acct : String)
    (ts : List ActivityTransaction) (s : String) (e : JournalEntry)
    (he : e ∈ saleGainLossLines d ref i acct ts s) : e.suffix = i := by
  simp only [saleGainLossLines] at he
  split at he
  · split at he <;> simp only [List.mem_singleton] at he <;> subst he <;> rfl
  · simp at he

theorem mem_saleGroupLines_suffix (st : Statement) (i : ℕ)
    (g : (String × String) × List ActivityTransaction)
    (e : JournalEntry) (he : e ∈ saleGroupLines st i g) : e.suffix = i := by
  simp only [saleGroupLines, List.mem_cons, List.mem_append, List.mem_map,
    List.mem_bind] at he
  rcases he with rfl | ⟨s, _, hgl⟩ | ⟨s, _, rfl⟩
  · rfl
  · exact mem_saleGainLossLines_suffix _ _ _ _ _ _ _ hgl
  · rfl

theorem mem_unrealizedGroupLines_suffix (st : Statement) (pe : String) (i : ℕ)
    (bid : String) (e : JournalEntry)
    (he : e ∈ unrealizedGroupLines st pe i bid) : e.suffix = i := by
  simp only [unrealizedGroupLines] at he
  split at he
  · simp at he
  · split at he
    · split at he <;> simp only [List.mem_cons, List.mem_singleton] at he <;>
        rcases he with rfl | rfl | h <;> first | rfl | simp at h
    · simp at he

theorem dividendGroup_balance (i : ℕ) (g : String × List IncomeTransaction) :
    rawDebitSum (dividendGroupLines i g) = rawCreditSum (dividendGroupLines i g) := by
  simp [dividendGroupLines, rawDebitSum_append, rawCreditSum_append, rawDebitSum,
    rawCreditSum, debitLine, creditLine, List.map_map, Function.comp_def, sum_map_zero]

theorem purchaseGroup_balance (st : Statement) (i : ℕ)
    (g : (String × String) × List ActivityTransaction) :
    rawDebitSum (purchaseGroupLines st i g) = rawCreditSum (purchaseGroupLines st i g) := by
  simp [purchaseGroupLines, rawDebitSum_append, rawCreditSum_append, rawDebitSum,
    rawCreditSum, debitLine, creditLine, List.map_map, Function.comp_def, sum_map_zero]

theorem unrealizedGroup_balance (st : Statement) (pe : String) (i : ℕ) (bid : String) :
    rawDebitSum (unrealizedGroupLines st pe i bid)
    = rawCreditSum (unrealizedGroupLines st pe i bid) := by
  simp only [unrealizedGroupLines]
  split
  · rfl
  · split
    · split <;>
        simp [rawDebitSum, rawCreditSum, debitLine, creditLine]
    · rfl

theorem sum_map_comb {α : Type} (l : List α) (f g h k : α → ℚ) :
    (l.map (fun a => f a + g a - h a - k a)).sum
    = (l.map f).sum + (l.map g).sum - (l.map h).sum - (l.map k).sum := by
  induction l with
  | nil => simp
  | cons a l ih => simp [ih]; ring

theorem symbolsSorted_nodup (ts : List ActivityTransaction) : (symbolsSorted ts).Nodup :=
  (List.perm_insertionSort _ _).nodup_iff.mpr (List.nodup_dedup _)

theorem mem_symbolsSorted (ts : List ActivityTransaction) (t : ActivityTransaction)
    (ht : t ∈ ts) : t.symbol ∈ symbolsSorted ts :=
  (List.mem_insertionSort _).mpr (List.mem_dedup.mpr (List.mem_map_of_mem _ ht))

theorem saleGroup_balance (st : Statement) (i : ℕ)
    (g : (String × String) × List ActivityTransaction) :
    rawDebitSum (saleGroupLines st i g) - rawCreditSum (saleGroupLines st i g)
    = immaterialGainLoss g.2 := by
  rcases g with ⟨⟨d, b⟩, ts⟩
  simp only [saleGroupLines, immaterialGainLoss]
  rw [rawDebitSum_cons, rawCreditSum_cons, rawDebitSum_append, rawCreditSum_append,
    rawDebitSum_bind, rawCreditSum_bind]
  have hcbd : rawDebitSum ((symbolsSorted ts).map
      (saleCostBasisLine st d ("SAL-" ++ d ++ (if b = "" then "" else "-" ++ b)) i ts)) = 0 := by
    simp [rawDebitSum, List.map_map, Function.comp_def, saleCostBasisLine, creditLine,
      sum_map_zero]
  have hcbc : rawCreditSum ((symbolsSorted ts).map
      (saleCostBasisLine st d ("SAL-" ++ d ++ (if b = "" then "" else "-" ++ b)) i ts))
      = ((symbolsSorted ts).map (fun s => symbolCostBasis ts s)).sum := by
    simp [rawCreditSum, List.map_map, Function.comp_def, saleCostBasisLine, creditLine]
  rw [hcbd, hcbc]
  have htot : (ts.map (fun t => t.amount)).sum
      = ((symbolsSorted ts).map (fun s => symbolProceeds ts s)).sum := by
    have := sum_groups (fun t => t.symbol) (fun t => t.amount) (symbolsSorted ts) ts
      (symbolsSorted_nodup ts) (fun t ht => mem_symbolsSorted ts t ht)
    simp only [symbolProceeds]
    exact this.symm
  simp only [debitLine, Option.getD_some, Option.getD_none]
  rw [htot]
  have hpt : ∀ s ∈ symbolsSorted ts,
      symbolProceeds ts s
      + rawDebitSum (saleGainLossLines d ("SAL-" ++ d ++ (if b = "" then "" else "-" ++ b)) i
          (saleIncomeAccount b) ts s)
      - rawCreditSum (saleGainLossLines d ("SAL-" ++ d ++ (if b = "" then "" else "-" ++ b)) i
          (saleIncomeAccount b) ts s)
      - symbolCostBasis ts s
      = (if |symbolGainLoss ts s| < 1/100 then symbolGainLoss ts s else 0) := by
    intro s _
    simp only [saleGainLossLines, symbolGainLoss]
    by_cases hm : (1 : ℚ)/100 ≤ |symbolProceeds ts s - symbolCostBasis ts s|
    · rw [if_pos hm, if_neg (not_lt.mpr hm)]
      by_cases hneg : symbolProceeds ts s - symbolCostBasis ts s < 0
      · rw [if_pos hneg]
        simp [rawDebitSum, rawCreditSum, debitLine, abs_of_neg hneg]
      · rw [if_neg hneg]
        simp [rawDebitSum, rawCreditSum, creditLine]
    · rw [if_neg hm, if_pos (not_le.mp hm)]
      simp [rawDebitSum, rawCreditSum]
  have hmerge := sum_map_comb (symbolsSorted ts)
    (fun s => symbolProceeds ts s)
    (fun s => rawDebitSum (saleGainLossLines d
      ("SAL-" ++ d ++ (if b = "" then "" else "-" ++ b)) i (saleIncomeAccount b) ts s))
    (fun s => rawCreditSum (saleGainLossLines d
      ("SAL-" ++ d ++ (if b = "" then "" else "-" ++ b)) i (saleIncomeAccount b) ts s))
    (fun s => symbolCostBasis ts s)
  rw [List.map_congr_left hpt] at hmerge
  linarith [hmerge]

theorem numbered_suffix_balance (f : ℕ → γ → List JournalEntry)
    (hf : ∀ i g e, e ∈ f i g → e.suffix = i)
    (hbal : ∀ i g, rawDebitSum (f i g) = rawCreditSum (f i g))
    (gs : List γ) (k n : ℕ) :
    rawDebitSum ((numbered f k gs).filter (fun e => e.suffix = n))
    = rawCreditSum ((numbered f k gs).filter (fun e => e.suffix = n)) := by
  rw [numbered_filter_suffix f hf gs k n]
  split
  · cases hg : gs.get? (n - k)
    · simp only [hg]
      rfl
    · simp only [hg]
      exact hbal n _
  · rfl

theorem unrealizedLoop_filter_balance (st : Statement) (pe : String) :
    ∀ (keys : List String) (k n : ℕ),
    rawDebitSum ((unrealizedLoop st pe k keys).filter (fun e => e.suffix = n))
    = rawCreditSum ((unrealizedLoop st pe k keys).filter (fun e => e.suffix = n)) := by
  intro keys
  induction keys with
  | nil =>
    intro k n
    rfl
  | cons bid rest ih =>
    intro k n
    simp only [unrealizedLoop]
    split
    · exact ih k n
    · rw [List.filter_append, rawDebitSum_append, rawCreditSum_append, ih (k + 1) n]
      by_cases hkn : k = n
      · subst hkn
        rw [List.filter_eq_self.mpr (fun e he => by
          simp [mem_unrealizedGroupLines_suffix st pe k bid e he])]
        rw [unrealizedGroup_balance st pe k bid]
      · rw [List.filter_eq_nil_iff.mpr (fun e he => by
          simp [mem_unrealizedGroupLines_suffix st pe k bid e he, hkn])]
        simp [rawDebitSum, rawCreditSum]

/-- C1 (amended): within each block, every journal number balances on the
exact (unformatted) amounts — exactly for the dividend, purchase and
unrealized blocks, while a sale journal's debit total exceeds its credit
total by precisely the suppressed sub-cent per-symbol realized
gains/losses of its group. -/
theorem journal_number_balance_amended (st : Statement) (n : ℕ) :
    rawDebitSum ((st.write_dividend_entries.getD []).filter (fun e => e.suffix = n))
      = rawCreditSum ((st.write_dividend_entries.getD []).filter (fun e => e.suffix = n))
    ∧ rawDebitSum ((st.write_purchase_entries.getD []).filter (fun e => e.suffix = n))
      = rawCreditSum ((st.write_purchase_entries.getD []).filter (fun e => e.suffix = n))
    ∧ rawDebitSum ((st.write_unrealized_entries.getD []).filter (fun e => e.suffix = n))
      = rawCreditSum ((st.write_unrealized_entries.getD []).filter (fun e => e.suffix = n))
    ∧ rawDebitSum ((st.write_sale_entries.getD []).filter (fun e => e.suffix = n))
      - rawCreditSum ((st.write_sale_entries.getD []).filter (fun e => e.suffix = n))
      = (match salesGroupAt st n with
         | some g => immaterialGainLoss g.2
         | none => 0) := by
  refine ⟨?_, ?_, ?_, ?_⟩
  · cases hinc : st.income with
    | none => simp [Statement.write_dividend_entries, hinc, rawDebitSum, rawCreditSum]
    | some inc =>
      simp only [Statement.write_dividend_entries, hinc]
      cases hts : (inc.filter (fun t => !t.is_reinvestment)).isEmpty
      · simp only [hts, Bool.false_eq_true, if_false, Option.getD_some]
        exact numbered_suffix_balance _ mem_dividendGroupLines_suffix
          dividendGroup_balance _ _ _
      · simp [hts, rawDebitSum, rawCreditSum]
  · cases hact : st.activity with
    | none => simp [Statement.write_purchase_entries, hact, rawDebitSum, rawCreditSum]
    | some acts =>
      simp only [Statement.write_purchase_entries, hact]
      cases hts : (purchaseTxns acts).isEmpty
      · simp only [hts, Bool.false_eq_true, if_false, Option.getD_some]
        exact numbered_suffix_balance _ (mem_purchaseGroupLines_suffix st)
          (purchaseGroup_balance st) _ _ _
      · simp [hts, rawDebitSum, rawCreditSum]
  · cases hh : st.holdings with
    | none => simp [Statement.write_unrealized_entries, hh, rawDebitSum, rawCreditSum]
    | some hs =>
      cases hsu : st.summary with
      | none => simp [Statement.write_unrealized_entries, hh, hsu, rawDebitSum, rawCreditSum]
      | some su =>
        simp only [Statement.write_unrealized_entries, hh, hsu]
        cases hks : (sortKeys strLeB (basketKeys st)).isEmpty
        · simp only [hks, Bool.false_eq_true, if_false, Option.getD_some]
          exact unrealizedLoop_filter_balance st su.period_end _ _ _
        · simp [hks, rawDebitSum, rawCreditSum]
  · cases hact : st.activity with
    | none =>
      simp [Statement.write_sale_entries, hact, rawDebitSum, rawCreditSum,
        salesGroupAt, salesGroups]
    | some acts =>
      simp only [Statement.write_sale_entries, hact]
      cases hts : (saleTxns acts).isEmpty
      · simp only [hts, Bool.false_eq_true, if_false, Option.getD_some]
        rw [numbered_filter_suffix _ (mem_saleGroupLines_suffix st) _ _ _]
        simp only [salesGroupAt, salesGroups, hact]
        split
        · cases hg : (groupsBy actKey pairLeB (saleTxns acts)).get? (n - 30001)
          · simp only [hg]
            simp [rawDebitSum, rawCreditSum]
          · simp only [hg]
            exact saleGroup_balance st n _
        · simp [rawDebitSum, rawCreditSum]
      · have hemp : saleTxns acts = [] := List.isEmpty_iff.mp hts
        simp [hts, rawDebitSum, rawCreditSum, salesGroupAt, salesGroups, hact, hemp,
          groupsBy, sortKeys]

/-- C1 (counterexample): two dividends of $0.125 (an exact float) on one date
produce a journal whose formatted debits sum to $0.24 against a formatted
credit of $0.25 — sum(debit) and sum(credit) differ by a cent after each
line's amount is formatted to two decimal places. -/
theorem dividend_formatted_balance_counterexample :
    fmtDebitSum ((stC1.write_dividend_entries.getD []).filter (fun e => e.suffix = 10001))
    ≠ fmtCreditSum ((stC1.write_dividend_entries.getD []).filter (fun e => e.suffix = 10001)) := by
  have hentries : stC1.write_dividend_entries
      = some [debitLine "2025-05-15" "DIV-2025-05-15" 10001
                "Cash - Fidelity Cash Management Account" (1/8),
              debitLine "2025-05-15" "DIV-2025-05-15" 10001
                "Cash - Fidelity Cash Management Account" (1/8),
              creditLine "2025-05-15" "DIV-2025-05-15" 10001
                "Income - Ordinary Dividends" (1/8 + (1/8 + 0))] := rfl
  rw [hentries]
  have h18 : round2 (1/8) = 12/100 := by norm_num [round2, roundHalfEven]
  have h14 : round2 (1/8 + (1/8 + 0)) = 25/100 := by norm_num [round2, roundHalfEven]
  have h0 : round2 0 = 0 := by norm_num [round2, roundHalfEven]
  simp only [Option.getD_some, List.filter, debitLine, creditLine, decide_True,
    decide_eq_true_eq]
  norm_num [fmtDebitSum, fmtCreditSum, h18, h14, h0]
  norm_num [round2, roundHalfEven]

/-- C2 (amended): a `beginning_value` that is present and strictly negative is
treated as unavailable and yields a change in value of 0 (a present
`beginning_value` of exactly 0 instead takes the new-position branch). -/
theorem negative_beginning_value_change_zero (h : Holding) (b : ℚ)
    (hb : h.beginning_value = some b) (hneg : b < 0) : h.change_in_value = 0 := by
  simp only [Holding.change_in_value, hb]
  split
  · rfl
  · rw [if_neg (by intro h0; rw [h0] at hneg; exact lt_irrefl 0 hneg),
      if_neg (not_lt.mpr (le_of_lt hneg))]

/-- C2 (counterexample): a non-money-market holding with `beginning_value`
present and equal to 0 has change in value `ending_value - cost_basis = 6`,
not 0 as the claim states for every `beginning_value ≤ 0`. -/
theorem zero_beginning_value_counterexample :
    hC2.beginning_value = some 0 ∧ hC2.change_in_value = 6 := by
  refine ⟨rfl, ?_⟩
  have hmmf : hC2.is_money_market = false := rfl
  have hbv : hC2.beginning_value = some 0 := rfl
  have hcb : hC2.cost_basis = some 4 := rfl
  have hev : hC2.ending_value = 10 := rfl
  norm_num [Holding.change_in_value, hmmf, hbv, hcb, hev]

theorem negative_beginning_value_change_zero_witness :
    hC2n.beginning_value = some (-5) ∧ hC2n.change_in_value = 0 :=
  ⟨rfl, negative_beginning_value_change_zero hC2n (-5) rfl (by norm_num)⟩

/-- C4: `is_validated` is true exactly when summary, income and holdings are
all loaded and the statement-reported period change agrees with dividend
income plus holdings value change to within 0.01; with any component missing
it is false (and, being a total function, never raises). -/
theorem is_validated_spec (st : Statement) :
    st.is_validated = true ↔
      ∃ su inc hs, st.summary = some su ∧ st.income = some inc ∧ st.holdings = some hs ∧
        |su.change_investment_value_period
          - (Income.amount inc + Holdings.change_in_value hs)| < 1/100 := by
  unfold Statement.is_validated
  rcases hsu : st.summary with _ | su
  · simp [hsu]
  · rcases hinc : st.income with _ | inc
    · simp [hsu, hinc]
    · rcases hh : st.holdings with _ | hs
      · simp [hsu, hinc, hh]
      · simp [hsu, hinc, hh]

/-- C7: a holding whose cost basis is absent or zero (money-market indicator)
has change in value exactly 0, whatever its other fields hold. -/
theorem money_market_change_zero (h : Holding)
    (hmm : h.cost_basis = none ∨ h.cost_basis = some 0) :
    h.change_in_value = 0 := by
  have hb : h.is_money_market = true := by
    rcases hmm with h1 | h1 <;> simp [Holding.is_money_market, h1]
  simp [Holding.change_in_value, hb]

theorem money_market_change_zero_witness : hC7.change_in_value = 0 :=
  money_market_change_zero hC7 (Or.inl rfl)

/-- C8: the combined ENT stream is exactly the concatenation, in the fixed
DIV, PUR, SAL, UNR order, of the rows of each block that produced any, with
each block's internal order and journal numbers retained verbatim. -/
theorem write_entries_concat (st : Statement) :
    st.write_entries
      = (st.write_dividend_entries.getD []) ++ (st.write_purchase_entries.getD [])
        ++ (st.write_sale_entries.getD []) ++ (st.write_unrealized_entries.getD [])
    ∧ st.write_entries.map (fun e => e.suffix)
      = ((st.write_dividend_entries.getD []).map (fun e => e.suffix))
        ++ ((st.write_purchase_entries.getD []).map (fun e => e.suffix))
        ++ ((st.write_sale_entries.getD []).map (fun e => e.suffix))
        ++ ((st.write_unrealized_entries.getD []).map (fun e => e.suffix)) := by
  have h : st.write_entries
      = (st.write_dividend_entries.getD []) ++ (st.write_purchase_entries.getD [])
        ++ (st.write_sale_entries.getD []) ++ (st.write_unrealized_entries.getD []) := by
    simp only [Statement.write_entries, entryFiles, List.lookup]
    rcases st.write_dividend_entries with _ | d <;>
      rcases st.write_purchase_entries with _ | p <;>
      rcases st.write_sale_entries with _ | sa <;>
      rcases st.write_unrealized_entries with _ | u <;>
      simp
  exact ⟨h, by rw [h]; simp⟩

/-- C6 (amended): in unrealized-entry generation, a basket whose net change is
below $0.01 in absolute value produces no rows at all, while a basket whose
net change reaches $0.01 produces exactly one balanced debit/credit pair for
`abs(round(change, 2))` — debit FMV / credit unrealized gain on a gain, the
reverse on a loss — provided its accounts are registered in `basket_info`.
In the remaining reachable corner (a basket whose only total comes from the
purchase/sale adjustment for a money-market mapped holding) the source raises
`KeyError` and no pair is emitted. -/
theorem unrealized_materiality (st : Statement) (pe : String) (n : ℕ) (bid : String) :
    (|basket_totals st bid| < 1/100 → unrealizedGroupLines st pe n bid = [])
    ∧ (1/100 ≤ |basket_totals st bid| → basketInfoAvailable st bid = true →
        unrealizedGroupLines st pe n bid
          = (if 0 < basket_totals st bid then
              [debitLine pe ("UNR-" ++ pe ++ "-" ++ bid) n (basketAccounts bid).2.1
                 (|round2 (basket_totals st bid)|),
               creditLine pe ("UNR-" ++ pe ++ "-" ++ bid) n (basketAccounts bid).2.2
                 (|round2 (basket_totals st bid)|)]
             else
              [debitLine pe ("UNR-" ++ pe ++ "-" ++ bid) n (basketAccounts bid).2.2
                 (|round2 (basket_totals st bid)|),
               creditLine pe ("UNR-" ++ pe ++ "-" ++ bid) n (basketAccounts bid).2.1
                 (|round2 (basket_totals st bid)|)])
        ∧ rawDebitSum (unrealizedGroupLines st pe n bid) = |round2 (basket_totals st bid)|
        ∧ rawCreditSum (unrealizedGroupLines st pe n bid) = |round2 (basket_totals st bid)|) := by
  constructor
  · intro hlt
    simp only [unrealizedGroupLines]
    rw [if_pos hlt]
  · intro hge hinfo
    have hmain : unrealizedGroupLines st pe n bid
        = (if 0 < basket_totals st bid then
            [debitLine pe ("UNR-" ++ pe ++ "-" ++ bid) n (basketAccounts bid).2.1
               (|round2 (basket_totals st bid)|),
             creditLine pe ("UNR-" ++ pe ++ "-" ++ bid) n (basketAccounts bid).2.2
               (|round2 (basket_totals st bid)|)]
           else
            [debitLine pe ("UNR-" ++ pe ++ "-" ++ bid) n (basketAccounts bid).2.2
               (|round2 (basket_totals st bid)|),
             creditLine pe ("UNR-" ++ pe ++ "-" ++ bid) n (basketAccounts bid).2.1
               (|round2 (basket_totals st bid)|)]) := by
      simp only [unrealizedGroupLines]
      rw [if_neg (not_lt.mpr hge), if_pos hinfo]
    refine ⟨hmain, ?_, ?_⟩ <;> rw [hmain] <;> split <;>
      simp [rawDebitSum, rawCreditSum, debitLine, creditLine]

theorem unrealized_materiality_witness :
    unrealizedGroupLines stC6a "2025-05-31" 40001 "10001" = []
    ∧ unrealizedGroupLines stC6b "2025-05-31" 40001 "10001"
      = [debitLine "2025-05-31" "UNR-2025-05-31-10001" 40001
           "Trading Securities - Water Basket - FMV Adjustment" (1/100),
         creditLine "2025-05-31" "UNR-2025-05-31-10001" 40001
           "Unrealized Gain - Equity Baskets - Water Investments" (1/100)] := by
  have hma : hC6a.is_money_market = false := rfl
  have hmb : hC6b.is_money_market = false := rfl
  have hbid : basketIdOf "CWCO" = some "10001" := rfl
  have hchga : hC6a.change_in_value = 9999/1000000 := by
    norm_num [Holding.change_in_value, hma, show hC6a.beginning_value = some 1 from rfl,
      show hC6a.ending_value = 1 + 9999/1000000 from rfl]
  have hchgb : hC6b.change_in_value = 1/100 := by
    norm_num [Holding.change_in_value, hmb, show hC6b.beginning_value = some 1 from rfl,
      show hC6b.ending_value = 1 + 1/100 from rfl]
  have htota : basket_totals stC6a "10001" = 9999/1000000 := by
    simp [basket_totals, show stHoldings stC6a = [hC6a] from rfl,
      show stActivity stC6a = [] from rfl, show liqSymbols stC6a = [] from rfl,
      basketHoldingTerm, hma, show hC6a.symbol = "CWCO" from rfl, hbid, hchga]
  have htotb : basket_totals stC6b "10001" = 1/100 := by
    simp [basket_totals, show stHoldings stC6b = [hC6b] from rfl,
      show stActivity stC6b = [] from rfl, show liqSymbols stC6b = [] from rfl,
      basketHoldingTerm, hmb, show hC6b.symbol = "CWCO" from rfl, hbid, hchgb]
  constructor
  · exact (unrealized_materiality stC6a "2025-05-31" 40001 "10001").1
      (by rw [htota, abs_of_pos (by norm_num : (0:ℚ) < 9999/1000000)]; norm_num)
  · have h := ((unrealized_materiality stC6b "2025-05-31" 40001 "10001").2
      (by rw [htotb]; exact le_abs_self _) rfl).1
    rw [h, htotb, if_pos (by norm_num : (0:ℚ) < 1/100)]
    have hamt : |round2 ((1:ℚ)/100)| = 1/100 := by
      norm_num [round2, roundHalfEven]
    rw [hamt]
    rfl

/-- C9: a sale transaction without a cost basis defaults its cost basis to its
own proceeds; a symbol all of whose sales in a group lack a cost basis has
realized gain/loss exactly 0, emits no realized gain/loss row, and its
security account is credited the full proceeds. -/
theorem sale_missing_cost_basis (ts : List ActivityTransaction) (s : String)
    (hmem : s ∈ ts.map (fun t => t.symbol))
    (hcb : ∀ t ∈ ts, t.symbol = s → t.cost_basis = none) :
    symbolGainLoss ts s = 0
    ∧ (∀ d ref n acct, saleGainLossLines d ref n acct ts s = [])
    ∧ (∀ st d ref n, (saleCostBasisLine st d ref n ts s).credit
        = some (symbolProceeds ts s))
    ∧ s ∈ symbolsSorted ts := by
  have hcost : symbolCostBasis ts s = symbolProceeds ts s := by
    unfold symbolCostBasis symbolProceeds
    congr 1
    apply List.map_congr_left
    intro t ht
    rcases List.mem_filter.mp ht with ⟨htl, hts⟩
    have hnone := hcb t htl (by simpa using hts)
    simp [effectiveCostBasis, hnone]
  have hgl : symbolGainLoss ts s = 0 := by
    rw [symbolGainLoss, hcost]
    ring
  refine ⟨hgl, ?_, ?_, ?_⟩
  · intro d ref n acct
    rw [saleGainLossLines, hgl]
    norm_num
  · intro st d ref n
    simp [saleCostBasisLine, creditLine, hcost]
  · rcases List.mem_map.mp hmem with ⟨t, ht, hts⟩
    exact hts ▸ mem_symbolsSorted ts t ht

theorem sale_missing_cost_basis_witness :
    symbolGainLoss [tC9] "ABC" = 0
    ∧ saleGainLossLines "2025-05-15" "SAL-2025-05-15" 30001
        "Income - Equity Securities" [tC9] "ABC" = []
    ∧ (saleCostBasisLine ⟨none, none, none, none, [], []⟩ "2025-05-15" "SAL-2025-05-15"
        30001 [tC9] "ABC").credit = some (symbolProceeds [tC9] "ABC") := by
  have h := sale_missing_cost_basis [tC9] "ABC" (by decide)
    (by
      intro t ht hts
      rcases List.mem_singleton.mp ht with rfl
      rfl)
  exact ⟨h.1, h.2.1 _ _ _ _, h.2.2.1 _ _ _ _⟩

theorem nodup_filter_eq_mem {α : Type} [DecidableEq α] (l : List α) (hl : l.Nodup)
    (s : α) (hs : s ∈ l) : l.filter (fun x => x = s) = [s] := by
  induction l with
  | nil => cases hs
  | cons a l ih =>
    rcases List.nodup_cons.mp hl with ⟨ha, hl'⟩
    rcases List.mem_cons.mp hs with rfl | hs'
    · rw [List.filter_cons_of_pos (by simp)]
      rw [List.filter_eq_nil_iff.mpr]
      intro x hx
      simp only [decide_eq_true_eq]
      intro hxs
      exact ha (hxs ▸ hx)
    · have has : ¬a = s := fun h => ha (h ▸ hs')
      rw [List.filter_cons_of_neg (by simp [has])]
      exact ih hl' hs'

theorem nodup_filter_eq_not_mem {α : Type} [DecidableEq α] (l : List α)
    (s : α) (hs : s ∉ l) : l.filter (fun x => x = s) = [] := by
  apply List.filter_eq_nil_iff.mpr
  intro x hx
  simp only [decide_eq_true_eq]
  intro hxs
  exact hs (hxs ▸ hx)

theorem liquidationTerm_eq_zero_of_not_mem (st : Statement) (s : String)
    (h : s ∉ liqSymbols st) : liquidationTerm st s = 0 := by
  unfold liquidationTerm
  cases hcond : ((stActivity st).any (fun t => decide (t.symbol = s) && hasSub t.action "Sold")
      && (basket_config s).isSome && !currentSymbols (stHoldings st) s)
  · simp [hcond]
  · exfalso
    apply h
    simp only [Bool.and_eq_true] at hcond
    rcases hcond with ⟨⟨hany, hiso⟩, hncur⟩
    rcases List.any_eq_true.mp hany with ⟨t, htl, hp⟩
    simp only [Bool.and_eq_true] at hp
    rcases hp with ⟨hts, hsold⟩
    have hts' : t.symbol = s := of_decide_eq_true hts
    apply List.mem_dedup.mpr
    apply List.mem_map.mpr
    refine ⟨t, ?_, hts'⟩
    apply List.mem_filter.mpr
    refine ⟨htl, ?_⟩
    simp only [Bool.and_eq_true]
    exact ⟨⟨hsold, hts' ▸ hiso⟩, hts' ▸ hncur⟩

theorem basket_totals_decompose (st : Statement) (bid s : String)
    (hb : basketIdOf s = some bid) :
    basket_totals st bid = symbolContribution st s + basketTotalExcluding st bid s := by
  rcases hcfg : basket_config s with _ | cfg
  · rw [basketIdOf, hcfg] at hb
    cases hb
  have hbid1 : cfg.1 = bid := by
    rw [basketIdOf, hcfg] at hb
    simpa using hb
  unfold basket_totals symbolContribution basketTotalExcluding
  simp only [decide_not]
  have h1 := sum_map_filter_compl (fun h => decide (h.symbol = s))
    (basketHoldingTerm bid) (stHoldings st)
  have h2 := sum_map_filter_compl (fun t => decide (t.symbol = s))
    (basketAdjustTerm st bid) (stActivity st)
  have h3 := sum_map_filter_compl (fun x => decide (x = s))
    (fun x => if basketIdOf x = some bid then liquidationTerm st x else 0) (liqSymbols st)
  have hA : (((stHoldings st).filter (fun h => h.symbol = s)).map
        (basketHoldingTerm bid)).sum
      = (((stHoldings st).filter (fun h => h.symbol = s)).map (fun h =>
          if !h.is_money_market ∧ (basket_config h.symbol).isSome = true
          then h.change_in_value else 0)).sum := by
    congr 1
    apply List.map_congr_left
    intro h hh
    rcases List.mem_filter.mp hh with ⟨_, hhs⟩
    have hhs' : h.symbol = s := of_decide_eq_true hhs
    rw [basketHoldingTerm, hhs', basketIdOf, hcfg]
    simp [hbid1]
  have hB : (((stActivity st).filter (fun t => t.symbol = s)).map
        (basketAdjustTerm st bid)).sum
      = (((stActivity st).filter (fun t => t.symbol = s)).map (fun t =>
          if (basket_config t.symbol).isSome = true ∧
             holdingsWithBeginning (stHoldings st) t.symbol = true then
            (if hasSub t.action "Bought" then -t.amount
             else if hasSub t.action "Sold" then t.amount
             else 0)
          else 0)).sum := by
    congr 1
    apply List.map_congr_left
    intro t ht
    rcases List.mem_filter.mp ht with ⟨_, hts⟩
    have hts' : t.symbol = s := of_decide_eq_true hts
    rw [basketAdjustTerm, hts', basketIdOf, hcfg]
    simp [hbid1]
  have hC : (((liqSymbols st).filter (fun x => x = s)).map (fun x =>
        if basketIdOf x = some bid then liquidationTerm st x else 0)).sum
      = liquidationTerm st s := by
    by_cases hmem : s ∈ liqSymbols st
    · rw [nodup_filter_eq_mem (liqSymbols st) (List.nodup_dedup _) s hmem]
      simp [hb]
    · rw [nodup_filter_eq_not_mem (liqSymbols st) s hmem]
      rw [liquidationTerm_eq_zero_of_not_mem st s hmem]
      rfl
  linarith [h1, h2, h3, hA, hB, hC]

/-- C3 (amended): a basket-mapped, non-money-market symbol still held at
period end with a positive beginning value contributes
`ending_value - beginning_value - period purchases + period sale proceeds`
to its basket's unrealized total (a money-market holding is skipped by the
holdings loop, so the claim needs the non-money-market proviso). -/
theorem held_symbol_contribution (st : Statement) (s : String) (h : Holding) (b c : ℚ)
    (bid : String)
    (hfil : (stHoldings st).filter (fun x => x.symbol = s) = [h])
    (hbid : basketIdOf s = some bid)
    (hcb : h.cost_basis = some c) (hc0 : c ≠ 0)
    (hbv : h.beginning_value = some b) (hb0 : 0 < b)
    (hexcl : ∀ t ∈ stActivity st, t.symbol = s →
      ¬(hasSub t.action "Bought" = true ∧ hasSub t.action "Sold" = true)) :
    symbolContribution st s = h.ending_value - b - boughtSum st s + soldSum st s
    ∧ basket_totals st bid = symbolContribution st s + basketTotalExcluding st bid s := by
  refine ⟨?_, basket_totals_decompose st bid s hbid⟩
  rcases hcfg : basket_config s with _ | cfg
  · rw [basketIdOf, hcfg] at hbid
    cases hbid
  have hmm : h.is_money_market = false := by
    simp [Holding.is_money_market, hcb, hc0]
  have hhmem : h ∈ stHoldings st ∧ h.symbol = s := by
    have hmem : h ∈ (stHoldings st).filter (fun x => x.symbol = s) := by
      rw [hfil]
      simp
    rcases List.mem_filter.mp hmem with ⟨h1, h2⟩
    exact ⟨h1, of_decide_eq_true h2⟩
  have hcur : currentSymbols (stHoldings st) s = true :=
    List.any_eq_true.mpr ⟨h, hhmem.1, by simp [hhmem.2]⟩
  have hwb : holdingsWithBeginning (stHoldings st) s = true := by
    apply List.any_eq_true.mpr
    refine ⟨h, hhmem.1, ?_⟩
    simp [hhmem.2, hbv, hb0]
  have hchg : h.change_in_value = h.ending_value - b := by
    simp [Holding.change_in_value, hmm, hbv, ne_of_gt hb0, hb0]
  have hterm1 : (((stHoldings st).filter (fun x => x.symbol = s)).map (fun x =>
      if !x.is_money_market ∧ (basket_config x.symbol).isSome = true
      then x.change_in_value else 0)).sum = h.ending_value - b := by
    rw [hfil]
    simp [hmm, hhmem.2, hcfg, hchg]
  have hfb : (stActivity st).filter (fun t => decide (t.symbol = s) && hasSub t.action "Bought")
      = ((stActivity st).filter (fun t => t.symbol = s)).filter
          (fun t => hasSub t.action "Bought") := by
    rw [List.filter_filter]
    exact List.filter_congr (fun t _ => Bool.and_comm _ _)
  have hfs : (stActivity st).filter (fun t => decide (t.symbol = s) && hasSub t.action "Sold")
      = ((stActivity st).filter (fun t => t.symbol = s)).filter
          (fun t => hasSub t.action "Sold") := by
    rw [List.filter_filter]
    exact List.filter_congr (fun t _ => Bool.and_comm _ _)
  have hbS : boughtSum st s
      = (((stActivity st).filter (fun t => t.symbol = s)).map
          (fun t => if hasSub t.action "Bought" then t.amount else 0)).sum := by
    rw [boughtSum, hfb, sum_filter_eq_sum_ite]
  have hsS : soldSum st s
      = (((stActivity st).filter (fun t => t.symbol = s)).map
          (fun t => if hasSub t.action "Sold" then t.amount else 0)).sum := by
    rw [soldSum, hfs, sum_filter_eq_sum_ite]
  have hpt : ∀ t ∈ (stActivity st).filter (fun t => t.symbol = s),
      (if (basket_config t.symbol).isSome = true ∧
          holdingsWithBeginning (stHoldings st) t.symbol = true then
        (if hasSub t.action "Bought" then -t.amount
         else if hasSub t.action "Sold" then t.amount
         else 0)
       else 0)
      = -(if hasSub t.action "Bought" then t.amount else 0)
        + (if hasSub t.action "Sold" then t.amount else 0) := by
    intro t ht
    rcases List.mem_filter.mp ht with ⟨htl, hts⟩
    have hts' : t.symbol = s := of_decide_eq_true hts
    rw [hts', hcfg]
    cases hbought : hasSub t.action "Bought" with
    | false =>
      cases hsold : hasSub t.action "Sold" with
      | false => simp [hwb, hbought, hsold]
      | true => simp [hwb, hbought, hsold]
    | true =>
      cases hsold : hasSub t.action "Sold" with
      | false => simp [hwb, hbought, hsold]
      | true => exact absurd ⟨hbought, hsold⟩ (hexcl t htl hts')
  have hterm2 : (((stActivity st).filter (fun t => t.symbol = s)).map (fun t =>
      if (basket_config t.symbol).isSome = true ∧
         holdingsWithBeginning (stHoldings st) t.symbol = true then
        (if hasSub t.action "Bought" then -t.amount
         else if hasSub t.action "Sold" then t.amount
         else 0)
      else 0)).sum = -boughtSum st s + soldSum st s := by
    rw [List.map_congr_left hpt, sum_map_add, sum_map_neg, hbS, hsS]
  have hliq : liquidationTerm st s = 0 := by
    unfold liquidationTerm
    simp [hcur]
  unfold symbolContribution
  rw [hterm1, hterm2, hliq]
  ring

/-- C3 (counterexample): a basket-mapped symbol held at period end with
`beginning_value = 100 > 0` but no cost basis (money-market) is skipped by
the holdings loop, so it contributes 0 to the basket total rather than
`ending_value - beginning_value - purchases + sales = 100` as the claim
states without a non-money-market proviso. -/
theorem held_symbol_contribution_counterexample :
    hC3.beginning_value = some 100
    ∧ basketIdOf "CWCO" = some "10001"
    ∧ (stHoldings stC3).filter (fun x => x.symbol = "CWCO") = [hC3]
    ∧ symbolContribution stC3 "CWCO"
        ≠ hC3.ending_value - 100 - boughtSum stC3 "CWCO" + soldSum stC3 "CWCO" := by
  refine ⟨rfl, rfl, rfl, ?_⟩
  have hmmt : hC3.is_money_market = true := rfl
  have hc : symbolContribution stC3 "CWCO" = 0 := by
    simp [symbolContribution,
      show (stHoldings stC3).filter (fun x => x.symbol = "CWCO") = [hC3] from rfl,
      show stActivity stC3 = [] from rfl, hmmt, liquidationTerm]
  have hb0 : boughtSum stC3 "CWCO" = 0 := by
    simp [boughtSum, show stActivity stC3 = [] from rfl]
  have hs0 : soldSum stC3 "CWCO" = 0 := by
    simp [soldSum, show stActivity stC3 = [] from rfl]
  rw [hc, hb0, hs0, show hC3.ending_value = 200 from rfl]
  norm_num

theorem held_symbol_contribution_witness :
    symbolContribution stC3w "CWCO" = 20
    ∧ basket_totals stC3w "10001" = symbolContribution stC3w "CWCO"
        + basketTotalExcluding stC3w "10001" "CWCO" := by
  have hx := held_symbol_contribution stC3w "CWCO" hC3w 100 50 "10001" rfl rfl rfl
    (by norm_num) rfl (by norm_num)
    (by
      intro t ht hts
      have hmem : t = tbC3 ∨ t = tsC3 := by
        simpa [show stActivity stC3w = [tbC3, tsC3] from rfl] using ht
      rcases hmem with rfl | rfl
      · intro hcon
        exact absurd hcon.2 (by decide)
      · intro hcon
        exact absurd hcon.1 (by decide))
  refine ⟨?_, hx.2⟩
  rw [hx.1]
  have hbS : boughtSum stC3w "CWCO" = 20 := by
    have hf : (stActivity stC3w).filter
        (fun t => decide (t.symbol = "CWCO") && hasSub t.action "Bought") = [tbC3] := rfl
    rw [boughtSum, hf]
    norm_num [tbC3]
  have hsS : soldSum stC3w "CWCO" = 10 := by
    have hf : (stActivity stC3w).filter
        (fun t => decide (t.symbol = "CWCO") && hasSub t.action "Sold") = [tsC3] := rfl
    rw [soldSum, hf]
    norm_num [tsC3]
  rw [hbS, hsS, show hC3w.ending_value = 130 from rfl]
  norm_num

/-- C5: a basket-mapped symbol sold during the period and absent from
period-end holdings contributes `total sale proceeds - prior month's ending
value` to its basket's unrealized total when the prior value is available,
and contributes nothing at all when it is not. -/
theorem liquidated_symbol_contribution (st : Statement) (s bid : String)
    (hbid : basketIdOf s = some bid)
    (hcur : currentSymbols (stHoldings st) s = false)
    (hsold : (stActivity st).any
      (fun t => decide (t.symbol = s) && hasSub t.action "Sold") = true) :
    symbolContribution st s
      = (match priorValue st s with
         | some pv => soldSum st s - pv
         | none => 0)
    ∧ basket_totals st bid = symbolContribution st s + basketTotalExcluding st bid s := by
  refine ⟨?_, basket_totals_decompose st bid s hbid⟩
  rcases hcfg : basket_config s with _ | cfg
  · rw [basketIdOf, hcfg] at hbid
    cases hbid
  have hnof : (stHoldings st).filter (fun x => x.symbol = s) = [] := by
    apply List.filter_eq_nil_iff.mpr
    intro x hx
    simp only [decide_eq_true_eq]
    intro hxs
    have hcur' : currentSymbols (stHoldings st) s = true :=
      List.any_eq_true.mpr ⟨x, hx, by simp [hxs]⟩
    rw [hcur'] at hcur
    cases hcur
  have hwb : holdingsWithBeginning (stHoldings st) s = false := by
    cases hx : holdingsWithBeginning (stHoldings st) s
    · rfl
    · exfalso
      rcases List.any_eq_true.mp hx with ⟨h, hh, hp⟩
      simp only [Bool.and_eq_true] at hp
      have hsym : h.symbol = s := of_decide_eq_true hp.1
      have hcur' : currentSymbols (stHoldings st) s = true :=
        List.any_eq_true.mpr ⟨h, hh, by simp [hsym]⟩
      rw [hcur'] at hcur
      cases hcur
  have hterm2 : (((stActivity st).filter (fun t => t.symbol = s)).map (fun t =>
      if (basket_config t.symbol).isSome = true ∧
         holdingsWithBeginning (stHoldings st) t.symbol = true then
        (if hasSub t.action "Bought" then -t.amount
         else if hasSub t.action "Sold" then t.amount
         else 0)
      else 0)).sum = 0 := by
    have hz : ∀ t ∈ (stActivity st).filter (fun t => t.symbol = s),
        (if (basket_config t.symbol).isSome = true ∧
           holdingsWithBeginning (stHoldings st) t.symbol = true then
          (if hasSub t.action "Bought" then -t.amount
           else if hasSub t.action "Sold" then t.amount
           else 0)
         else 0) = (0 : ℚ) := by
      intro t ht
      rcases List.mem_filter.mp ht with ⟨_, hts⟩
      have hts' : t.symbol = s := of_decide_eq_true hts
      rw [hts', hwb]
      simp
    rw [List.map_congr_left hz, sum_map_zero]
  have hliq : liquidationTerm st s
      = (match priorValue st s with
         | some pv => soldProceeds st s - pv
         | none => 0) := by
    unfold liquidationTerm
    rw [if_pos]
    rw [hsold, hcfg, hcur]
    rfl
  have hsp : soldProceeds st s = soldSum st s := by
    unfold soldProceeds soldSum liqSoldTxns
    congr 1
    rw [List.filter_filter]
    congr 1
    apply List.filter_congr
    intro t _
    cases hts : decide (t.symbol = s)
    · simp
    · have hts' : t.symbol = s := of_decide_eq_true hts
      simp [hts', hcfg, hcur]
  unfold symbolContribution
  rw [hnof, hterm2, hliq, hsp]
  simp

theorem liquidated_symbol_contribution_witness :
    symbolContribution stC5 "JEPI" = 20
    ∧ basket_totals stC5 "10003" = symbolContribution stC5 "JEPI"
        + basketTotalExcluding stC5 "10003" "JEPI" := by
  have hx := liquidated_symbol_contribution stC5 "JEPI" "10003" rfl rfl (by decide)
  refine ⟨?_, hx.2⟩
  rw [hx.1]
  have hp : priorValue stC5 "JEPI" = some 100 := rfl
  have hss : soldSum stC5 "JEPI" = 120 := by
    have hf : (stActivity stC5).filter
        (fun t => decide (t.symbol = "JEPI") && hasSub t.action "Sold") = [tC5] := rfl
    rw [soldSum, hf]
    norm_num [tC5]
  simp only [hp, hss]
  norm_num

/-- C10 (amended): `Summary.from_csv_file` raises `FileNotFoundError` for a
missing file and `ValueError` when the file has zero or more than one
non-empty data row; with exactly one non-empty row it returns the parsed
`Summary` provided every cell parses, and raises `ValueError` when a cell
fails its conversion. -/
theorem summary_from_csv_file_amended :
    Summary.from_csv_file none = .error .file_not_found
    ∧ ∀ rows : List SummaryRaw,
        ((rows.filter SummaryRaw.rowHasValues = [] →
          Summary.from_csv_file (some rows) = .error .value_error)
        ∧ (2 ≤ (rows.filter SummaryRaw.rowHasValues).length →
          Summary.from_csv_file (some rows) = .error .value_error)
        ∧ (∀ r s, rows.filter SummaryRaw.rowHasValues = [r] →
            Summary.from_csv_row r = some s →
            Summary.from_csv_file (some rows) = .ok s)
        ∧ (∀ r, rows.filter SummaryRaw.rowHasValues = [r] →
            Summary.from_csv_row r = none →
            Summary.from_csv_file (some rows) = .error .value_error)) := by
  refine ⟨rfl, ?_⟩
  intro rows
  rcases hf : rows.filter SummaryRaw.rowHasValues with _ | ⟨r0, rest⟩
  · refine ⟨fun _ => ?_, fun hlen => ?_, fun r s hr _ => ?_, fun r hr _ => ?_⟩
    · simp [Summary.from_csv_file, hf]
    · simp at hlen
    · cases hr
    · cases hr
  · rcases rest with _ | ⟨r1, rest2⟩
    · refine ⟨fun hnil => ?_, fun hlen => ?_, fun r s hr hrow => ?_, fun r hr hrow => ?_⟩
      · cases hnil
      · simp at hlen
      · have hr0 : r0 = r := by simpa using hr
        subst hr0
        simp [Summary.from_csv_file, hf, hrow]
      · have hr0 : r0 = r := by simpa using hr
        subst hr0
        simp [Summary.from_csv_file, hf, hrow]
    · refine ⟨fun hnil => ?_, fun _ => ?_, fun r s hr _ => ?_, fun r hr _ => ?_⟩
      · cases hnil
      · simp [Summary.from_csv_file, hf]
      · simp at hr
      · simp at hr

/-- C10 (counterexample): a file whose single non-empty row has an
unparseable cell raises `ValueError` even though there is exactly one
non-empty data row, so `from_csv_file` does not return a `Summary` for it. -/
theorem summary_parse_failure_counterexample :
    [rowBad].filter SummaryRaw.rowHasValues = [rowBad]
    ∧ Summary.from_csv_file (some [rowBad]) = .error .value_error :=
  ⟨rfl, rfl⟩

theorem summary_from_csv_file_amended_witness :
    Summary.from_csv_file (some [rowGood]) = .ok sGood := by
  have hrow : Summary.from_csv_row rowGood = some sGood := rfl
  exact (summary_from_csv_file_amended.2 [rowGood]).2.2.1 rowGood sGood rfl hrow

/-- C6 (counterexample): a basket whose net change is -50 (absolute value well
above $0.01) because its only mapped holding is money-market (skipped by the
holdings loop, so `basket_info` never registers the basket) while the
purchase adjustment still created its `basket_totals` key: no balanced pair
is produced for it — the source raises `KeyError` at the `basket_info`
lookup instead of emitting the pair the claim promises. -/
theorem unrealized_materiality_counterexample :
    (1 : ℚ)/100 ≤ |basket_totals stC6c "10001"|
    ∧ basketInfoAvailable stC6c "10001" = false
    ∧ unrealizedGroupLines stC6c "2025-05-31" 40001 "10001" = [] := by
  have hmm : hC6c.is_money_market = true := rfl
  have htot : basket_totals stC6c "10001" = -50 := by
    simp [basket_totals, show stHoldings stC6c = [hC6c] from rfl,
      show stActivity stC6c = [tC6c] from rfl, show liqSymbols stC6c = [] from rfl,
      basketHoldingTerm, basketAdjustTerm, hmm,
      show basketIdOf tC6c.symbol = some "10001" from rfl,
      show holdingsWithBeginning [hC6c] tC6c.symbol = true from rfl,
      show hasSub tC6c.action "Bought" = true from rfl,
      show tC6c.amount = 50 from rfl]
  have hinfo : basketInfoAvailable stC6c "10001" = false := rfl
  have habs : ¬|basket_totals stC6c "10001"| < 1/100 := by
    rw [htot, abs_of_neg (by norm_num : (-50 : ℚ) < 0)]
    norm_num
  refine ⟨not_lt.mp habs, hinfo, ?_⟩
  simp only [unrealizedGroupLines]
  rw [if_neg habs, if_neg (by simp [hinfo])]
